import Mathlib

/-!
Shallow embedding of `src/canvas_spoof.js`, the canvas-fingerprint noise
injector, together with proofs about its noise loop, its export wrappers and
its installation IIFE.

Modelling conventions:
* A pixel buffer (`ImageData.data`) is a `List Nat` of RGBA bytes, row-major.
* One `Math.random()` draw is a rational number; real executions only produce
  draws in `[0, 1)`, which appears as a hypothesis where it matters.
* JS bitwise `v & 255` on a small integer is the euclidean remainder mod 256.
* A thrown JS exception (the `SecurityError` of a tainted canvas, or an
  installation-time failure) is modelled with `Except Unit` or an explicit
  failure flag.
-/

/-- `Math.floor(r * 3) - 1` from line 16 of the source, computed on the
numerator and denominator of the rational draw by euclidean division so that
it evaluates by kernel reduction.  `noiseDelta_eq_floor` below proves it equal
to the mathematical `⌊r * 3⌋ - 1`. -/
def noiseDelta (r : ℚ) : Int :=
  3 * r.num / (r.den : Int) - 1

/-- `v & 255` from line 17 of the source: JS coerces to int32 and masks the
low 8 bits, which for the values in play (a byte plus a delta in `[-1, 1]`) is
exactly the euclidean remainder modulo 256. -/
def band255 (v : Int) : Nat :=
  (v % 256).toNat

/-- The model of an `HTMLCanvasElement` together with the state its 2D context
exposes: geometry, whether `getContext("2d")` returns a context, whether the
canvas is tainted (so `getImageData` throws a `SecurityError`), and the RGBA
pixel buffer currently rendered. -/
structure Canvas where
  width : Nat
  height : Nat
  hasContext : Bool
  tainted : Bool
  data : List Nat
deriving DecidableEq, Repr

/-- The `for` loop of `noisyFunction` (lines 14–18): starting at `i`, while
`i < data.length`, overwrite index `i + 3` with the noised alpha byte and step
`i` by 4.  Reads or writes past the end of a typed array are ignored by JS,
which `List.getD` / `List.set` reproduce. -/
def alphaLoop (rand : Nat → ℚ) (data : List Nat) (i : Nat) : List Nat :=
  if i < data.length then
    alphaLoop rand
      (data.set (i + 3) (band255 ((data.getD (i + 3) 0 : Int) + noiseDelta (rand (i / 4)))))
      (i + 4)
  else data
termination_by data.length - i
decreasing_by simp only [List.length_set]; omega

/-- The indices of the pixel buffer that the loop body touches (it reads and
writes `data[i + 3]` on the iteration with loop variable `i`), for a buffer of
length `L`, starting from loop variable `i`. -/
def alphaLoopAccesses (L : Nat) (i : Nat) : List Nat :=
  if i < L then (i + 3) :: alphaLoopAccesses L (i + 4) else []
termination_by L - i

/-- `noisyFunction(canvas, context)` (lines 8–20).  Returns the canvas state
after the call together with the number of `getImageData` calls (bulk pixel
reads) and `putImageData` calls (bulk pixel writes) it performed, or
`Except.error ()` if the pixel read threw (tainted canvas).  The guards mirror
lines 9–11: missing context, zero width, or zero height short-circuit before
any pixel access. -/
def noisyFunction (rand : Nat → ℚ) (c : Canvas) : Except Unit (Canvas × Nat × Nat) :=
  if !c.hasContext then .ok (c, 0, 0)
  else if c.width == 0 || c.height == 0 then .ok (c, 0, 0)
  else if c.tainted then .error ()
  else .ok ({ c with data := alphaLoop rand c.data 0 }, 1, 1)

/-- The wrapper installed over `toDataURL` / `toBlob` (lines 24–27 and 31–34):
run `noisyFunction` on the receiver, then delegate to the captured original
with the same receiver and the caller's arguments.  There is no `try`/`catch`
in the wrapper, so an exception from `noisyFunction` aborts the call before
the original is reached; the `Except` sequencing models exactly that. -/
def wrappedExport {α β : Type} (original : Canvas → α → Except Unit β)
    (rand : Nat → ℚ) (c : Canvas) (args : α) : Except Unit β :=
  match noisyFunction rand c with
  | .error e => .error e
  | .ok (c2, _, _) => original c2 args

/-- The function object stored in `HTMLCanvasElement.prototype.toDataURL`
(resp. `.toBlob`): either the browser-native export, or a wrapper closure
around whatever was stored when the script ran (line 23 resp. 30 captures it,
line 24 resp. 31 replaces it). -/
inductive Impl where
  | native : Impl
  | wrapped : Impl → Impl
deriving DecidableEq, Repr

/-- How many times a call to the stored export function runs `noisyFunction`
before the native export finally executes. -/
def noiseDepth : Impl → Nat
  | .native => 0
  | .wrapped inner => noiseDepth inner + 1

/-- Call semantics of a stored export function on a canvas: the native export
observes the canvas state it is given (returned here as the result); a wrapper
first applies `noisyFunction` with fresh draws and then calls the function it
captured.  `rands d` is the draw stream consumed at wrapper nesting depth `d`,
so distinct nested wrappers consume independent fresh draws. -/
def runImpl (rands : Nat → Nat → ℚ) : Impl → Canvas → Except Unit Canvas
  | .native, c => .ok c
  | .wrapped inner, c =>
    match noisyFunction (rands 0) c with
    | .error e => .error e
    | .ok (c2, _, _) => runImpl (fun d => rands (d + 1)) inner c2

/-- The page environment the installation IIFE runs against: whether each of
its five fallible steps succeeds (reading
`CanvasRenderingContext2D.prototype.getImageData`, then reading and assigning
`HTMLCanvasElement.prototype.toDataURL`, then reading and assigning
`HTMLCanvasElement.prototype.toBlob`), plus the current values of the two
export entry points. -/
structure Host where
  getImageDataOk : Bool
  readToDataURLOk : Bool
  writeToDataURLOk : Bool
  readToBlobOk : Bool
  writeToBlobOk : Bool
  toDataURL : Impl
  toBlob : Impl
deriving DecidableEq, Repr

/-- The installation IIFE (lines 3–38) with its `try`/`catch`: the five
fallible steps run in source order; the first failure jumps to the `catch`,
which only logs.  Returns the resulting environment and whether the `catch`
ran.  Note there is no rollback: a failure after the `toDataURL` assignment
leaves that patch in place. -/
def installGuarded (h : Host) : Host × Bool :=
  if !h.getImageDataOk then (h, true)
  else if !h.readToDataURLOk then (h, true)
  else if !h.writeToDataURLOk then (h, true)
  else
    let h1 := { h with toDataURL := .wrapped h.toDataURL }
    if !h1.readToBlobOk then (h1, true)
    else if !h1.writeToBlobOk then (h1, true)
    else ({ h1 with toBlob := .wrapped h1.toBlob }, false)

/-- `n` successive evaluations of the script in the same page context. -/
def installN : Nat → Host → Host
  | 0, h => h
  | n + 1, h => installN n (installGuarded h).1

/-- A sample export function used to observe wrapper behaviour in concrete
instances: it succeeds and returns (an encoding of) the receiver's pixels. -/
def exportData : Canvas → Nat → Except Unit (List Nat) :=
  fun c _ => .ok c.data

/-- A sample export function that always fails, used to observe that a wrapper
result does not depend on the captured original when noise application throws. -/
def exportFail : Canvas → Nat → Except Unit (List Nat) :=
  fun _ _ => .error ()

/-- A concrete `Math.random()` draw `1/2`, giving delta `0`. -/
def drawMid : ℚ := ⟨1, 2, by norm_num, by norm_num⟩

/-- A concrete `Math.random()` draw `5/6`, giving delta `+1`. -/
def drawHigh : ℚ := ⟨5, 6, by norm_num, by norm_num⟩

/-- A 1×1 fully opaque red canvas with a 2D context. -/
def canvasOpaque : Canvas := ⟨1, 1, true, false, [255, 0, 0, 255]⟩

/-- A 1×1 canvas with a 2D context and generic channel bytes. -/
def canvasTest : Canvas := ⟨1, 1, true, false, [10, 20, 30, 100]⟩

/-- A 1×1 tainted (cross-origin) canvas: `getImageData` on it throws. -/
def canvasTainted : Canvas := ⟨1, 1, true, true, [255, 0, 0, 255]⟩

/-- A 0×0 canvas. -/
def canvasZero : Canvas := ⟨0, 0, true, false, []⟩

/-- A host on which every installation step succeeds, with native exports. -/
def hostNative : Host := ⟨true, true, true, true, true, .native, .native⟩

/-- A host on which reading `HTMLCanvasElement.prototype.toBlob` throws (for
example a page that redefined it with a throwing getter), everything before it
succeeding. -/
def hostBlobBroken : Host := ⟨true, true, true, false, true, .native, .native⟩

/-- `noiseDelta` agrees with the specification-level formula `⌊r * 3⌋ - 1`. -/
theorem noiseDelta_eq_floor (r : ℚ) : noiseDelta r = ⌊r * 3⌋ - 1 := by
  have h : r * 3 = ((3 * r.num : Int) : ℚ) / ((r.den : ℕ) : ℚ) := by
    push_cast
    rw [mul_div_assoc, Rat.num_div_den]
    ring
  rw [noiseDelta, h, Rat.floor_intCast_div_natCast]

/-- For a draw in `[0, 1)` (the range of `Math.random()`), the delta is one of
`-1`, `0`, `1`. -/
theorem noiseDelta_mem (r : ℚ) (h0 : 0 ≤ r) (h1 : r < 1) :
    noiseDelta r = -1 ∨ noiseDelta r = 0 ∨ noiseDelta r = 1 := by
  rw [noiseDelta_eq_floor]
  have hge : (0 : Int) ≤ ⌊r * 3⌋ :=
    Int.floor_nonneg.mpr (mul_nonneg h0 (by norm_num))
  have hlt : ⌊r * 3⌋ < 3 := by
    apply Int.floor_lt.mpr
    push_cast
    have := mul_lt_mul_of_pos_right h1 (show (0 : ℚ) < 3 by norm_num)
    simpa using this
  omega

/-- Casting `band255 v` back to `Int` is remainder mod 256. -/
theorem band255_cast (v : Int) : (band255 v : Int) = v % 256 := by
  rw [band255]
  exact Int.toNat_of_nonneg (Int.emod_nonneg v (by norm_num))

/-- `band255` always produces a byte. -/
theorem band255_lt (v : Int) : band255 v < 256 := by
  have h := Int.emod_lt_of_pos v (show (0 : Int) < 256 by norm_num)
  have h0 := Int.emod_nonneg v (show (256 : Int) ≠ 0 by norm_num)
  rw [band255]
  omega

/-- The two concrete draws are legitimate `Math.random()` outputs. -/
theorem drawMid_bounds : 0 ≤ drawMid ∧ drawMid < 1 :=
  ⟨Rat.num_nonneg.mp (by decide), Rat.lt_one_iff_num_lt_denom.mpr (by decide)⟩

theorem drawHigh_bounds : 0 ≤ drawHigh ∧ drawHigh < 1 :=
  ⟨Rat.num_nonneg.mp (by decide), Rat.lt_one_iff_num_lt_denom.mpr (by decide)⟩

theorem alphaLoop_step (rand : Nat → ℚ) (data : List Nat) (i : Nat)
    (h : i < data.length) :
    alphaLoop rand data i =
      alphaLoop rand
        (data.set (i + 3) (band255 ((data.getD (i + 3) 0 : Int) + noiseDelta (rand (i / 4)))))
        (i + 4) := by
  rw [alphaLoop, if_pos h]

theorem alphaLoop_stop (rand : Nat → ℚ) (data : List Nat) (i : Nat)
    (h : ¬ i < data.length) :
    alphaLoop rand data i = data := by
  rw [alphaLoop, if_neg h]

theorem getD_set_self (l : List Nat) (i : Nat) (a : Nat) (h : i < l.length) :
    (l.set i a).getD i 0 = a := by
  simp [List.getD_eq_getElem?_getD, List.getElem?_set, h]

theorem getD_set_ne (l : List Nat) (i j : Nat) (a : Nat) (h : i ≠ j) :
    (l.set i a).getD j 0 = l.getD j 0 := by
  simp [List.getD_eq_getElem?_getD, List.getElem?_set, h]

/-- The loop preserves the length of the pixel buffer. -/
theorem alphaLoop_length (rand : Nat → ℚ) (data : List Nat) (i : Nat) :
    (alphaLoop rand data i).length = data.length := by
  rw [alphaLoop]
  split
  case isTrue h =>
    rw [alphaLoop_length]
    simp [List.length_set]
  case isFalse h => rfl
termination_by data.length - i
decreasing_by simp only [List.length_set]; omega

/-- Full characterisation of the loop: the entry at index `j` of the result is
the noised alpha byte exactly when `j` is an alpha index reached from start
index `i` and lies inside the buffer, and is untouched otherwise.  The draw
used for the write at `j` is draw number `(j - 3) / 4`, the pixel index. -/
theorem alphaLoop_getD (rand : Nat → ℚ) (data : List Nat) (i j : Nat) :
    (alphaLoop rand data i).getD j 0 =
      if i + 3 ≤ j ∧ (j - i) % 4 = 3 ∧ j < data.length then
        band255 ((data.getD j 0 : Int) + noiseDelta (rand ((j - 3) / 4)))
      else data.getD j 0 := by
  rw [alphaLoop]
  split
  case isTrue h =>
    rw [alphaLoop_getD]
    simp only [List.length_set]
    by_cases hj : j = i + 3
    · subst hj
      rw [if_neg (by omega)]
      by_cases hjL : i + 3 < data.length
      · rw [if_pos ⟨by omega, by omega, hjL⟩, getD_set_self _ _ _ hjL]
        have hidx : i + 3 - 3 = i := by omega
        rw [hidx]
      · rw [if_neg (by omega), List.set_eq_of_length_le (by omega)]
    · rw [getD_set_ne _ _ _ _ (by omega)]
      by_cases hcond : i + 3 ≤ j ∧ (j - i) % 4 = 3 ∧ j < data.length
      · rw [if_pos hcond, if_pos (by omega)]
      · rw [if_neg hcond, if_neg (by omega)]
  case isFalse h =>
    rw [if_neg (by omega)]
termination_by data.length - i
decreasing_by simp only [List.length_set]; omega

/-- Membership in the access list: index `j` is touched by the loop started at
`i` over a buffer of length `L` exactly when it is an alpha index of an
iteration that runs. -/
theorem mem_alphaLoopAccesses (L i j : Nat) :
    j ∈ alphaLoopAccesses L i ↔ i + 3 ≤ j ∧ (j - i) % 4 = 3 ∧ j - 3 < L := by
  rw [alphaLoopAccesses]
  split
  case isTrue h =>
    rw [List.mem_cons, mem_alphaLoopAccesses]
    constructor
    · rintro (rfl | ⟨h1, h2, h3⟩)
      · exact ⟨by omega, by omega, by omega⟩
      · exact ⟨by omega, by omega, by omega⟩
    · rintro ⟨h1, h2, h3⟩
      by_cases hj : j = i + 3
      · exact Or.inl hj
      · exact Or.inr ⟨by omega, by omega, by omega⟩
  case isFalse h =>
    simp only [List.not_mem_nil, false_iff]
    rintro ⟨h1, h2, h3⟩
    omega
termination_by L - i
decreasing_by omega

/-- One full pass over a 4-byte (one pixel) buffer is a single iteration. -/
theorem alphaLoop_four (rand : Nat → ℚ) (data : List Nat) (h : data.length = 4) :
    alphaLoop rand data 0 =
      data.set 3 (band255 ((data.getD 3 0 : Int) + noiseDelta (rand 0))) := by
  rw [alphaLoop_step _ _ _ (by omega),
      alphaLoop_stop _ _ _ (by simp [List.length_set, h])]

/-- Running `noisyFunction` on a canvas that passes the guards and is not
tainted: one `getImageData`, the alpha loop, one `putImageData`. -/
theorem noisyFunction_run (rand : Nat → ℚ) (c : Canvas)
    (hc : c.hasContext = true) (ht : c.tainted = false)
    (hw : c.width ≠ 0) (hh : c.height ≠ 0) :
    noisyFunction rand c = .ok ({ c with data := alphaLoop rand c.data 0 }, 1, 1) := by
  rw [noisyFunction, hc, ht]
  simp only [Bool.not_true, Bool.false_eq_true, if_false]
  rw [if_neg (by simp [hw, hh])]

/-- Running `noisyFunction` on a canvas stopped by one of the guards of lines
9–11: no pixel access at all and no state change. -/
theorem noisyFunction_guard (rand : Nat → ℚ) (c : Canvas)
    (h : c.hasContext = false ∨ c.width = 0 ∨ c.height = 0) :
    noisyFunction rand c = .ok (c, 0, 0) := by
  rw [noisyFunction]
  rcases h with h | h | h
  · rw [h]
    simp
  · rw [h]
    by_cases hc : c.hasContext <;> simp [hc]
  · rw [h]
    by_cases hc : c.hasContext <;> simp [hc]

/-- Running `noisyFunction` on a tainted canvas that passes the guards: the
`getImageData` call throws and the exception leaves `noisyFunction`. -/
theorem noisyFunction_tainted (rand : Nat → ℚ) (c : Canvas)
    (hc : c.hasContext = true) (ht : c.tainted = true)
    (hw : c.width ≠ 0) (hh : c.height ≠ 0) :
    noisyFunction rand c = .error () := by
  rw [noisyFunction, hc, ht]
  simp only [Bool.not_true, Bool.false_eq_true, if_false]
  rw [if_neg (by simp [hw, hh])]
  simp

/-- On a host where all five installation steps succeed, the IIFE wraps both
export entry points once and the catch does not run. -/
theorem install_all_ok (h : Host)
    (hg : h.getImageDataOk = true) (hr1 : h.readToDataURLOk = true)
    (hw1 : h.writeToDataURLOk = true) (hr2 : h.readToBlobOk = true)
    (hw2 : h.writeToBlobOk = true) :
    installGuarded h =
      ({ h with toDataURL := .wrapped h.toDataURL, toBlob := .wrapped h.toBlob },
        false) := by
  obtain ⟨g, r1, w1, r2, w2, td, tb⟩ := h
  cases g <;> cases r1 <;> cases w1 <;> cases r2 <;> cases w2 <;>
    first
      | rfl
      | simp_all

/-- Claim C1, counterexample.  On a tainted 1×1 canvas the patched export does
not forward to the captured original: it surfaces the noise step's exception
instead of the original's outcome (here the original would have succeeded), so
the caller does not observe the outcome the native export would produce. -/
theorem toDataURL_wrapper_error_cex :
    wrappedExport exportData (fun _ => drawMid) canvasTainted 0 = .error () ∧
    exportData canvasTainted 0 = .ok [255, 0, 0, 255] ∧
    wrappedExport exportData (fun _ => drawMid) canvasTainted 0 ≠
      exportData canvasTainted 0 :=
  ⟨rfl, rfl, fun hq => Except.noConfusion hq⟩

/-- Claim C1, amended: the wrapper contains no `try`/`catch`, so when the
pixel-read or pixel-write step inside noise application throws, the exception
propagates to the caller of the patched export and the originally captured
export function is never invoked (the wrapper's result does not depend on it);
only installation-time failures are caught by the IIFE's guard. -/
theorem noise_error_propagates_to_caller {α β : Type}
    (o1 o2 : Canvas → α → Except Unit β) (rand : Nat → ℚ) (c : Canvas) (a : α)
    (h : noisyFunction rand c = .error ()) :
    wrappedExport o1 rand c a = .error () ∧
    wrappedExport o1 rand c a = wrappedExport o2 rand c a := by
  unfold wrappedExport
  rw [h]
  exact ⟨rfl, rfl⟩

theorem noise_error_propagates_to_caller_witness :
    wrappedExport exportData (fun _ => drawMid) canvasTainted 0 = .error () ∧
    wrappedExport exportData (fun _ => drawMid) canvasTainted 0 =
      wrappedExport exportFail (fun _ => drawMid) canvasTainted 0 :=
  noise_error_propagates_to_caller exportData exportFail (fun _ => drawMid)
    canvasTainted 0 rfl

/-- Claim C2, counterexample.  On the fully opaque 1×1 red canvas, the draw
`5/6` (a legitimate `Math.random()` output giving delta `+1`) drives the alpha
byte `255` to `(255 + 1) & 255 = 0`, which is outside the claimed set
`{254, 255}`. -/
theorem opaque_alpha_zero_cex :
    (0 ≤ drawHigh ∧ drawHigh < 1) ∧
    noisyFunction (fun _ => drawHigh) canvasOpaque =
      .ok (⟨1, 1, true, false, [255, 0, 0, 0]⟩, 1, 1) ∧
    ¬ ((⟨1, 1, true, false, [255, 0, 0, 0]⟩ : Canvas).data.getD 3 0 = 254 ∨
       (⟨1, 1, true, false, [255, 0, 0, 0]⟩ : Canvas).data.getD 3 0 = 255) := by
  refine ⟨drawHigh_bounds, ?_, by decide⟩
  rw [noisyFunction_run _ _ rfl rfl (by decide) (by decide),
      alphaLoop_four (fun _ => drawHigh) canvasOpaque.data rfl]
  rfl

/-- Claim C2, amended: on a canvas whose alpha bytes are all `255`, one noise
application leaves every alpha byte in `{0, 254, 255}` (the delta `+1` wraps
`255` to `0` under the `& 255` reduction rather than staying in `{254, 255}`). -/
theorem opaque_alpha_set_amended (rand : Nat → ℚ) (c : Canvas)
    (hc : c.hasContext = true) (ht : c.tainted = false)
    (hw : 0 < c.width) (hh : 0 < c.height)
    (hr : ∀ k, 0 ≤ rand k ∧ rand k < 1)
    (ha : ∀ j, j % 4 = 3 → j < c.data.length → c.data.getD j 0 = 255) :
    ∃ c2, noisyFunction rand c = .ok (c2, 1, 1) ∧
      ∀ j, j % 4 = 3 → j < c2.data.length →
        c2.data.getD j 0 = 0 ∨ c2.data.getD j 0 = 254 ∨ c2.data.getD j 0 = 255 := by
  refine ⟨{ c with data := alphaLoop rand c.data 0 },
    noisyFunction_run rand c hc ht (by omega) (by omega), ?_⟩
  intro j hj hjlen
  have hjlen2 : j < c.data.length := by
    simpa [alphaLoop_length] using hjlen
  show (alphaLoop rand c.data 0).getD j 0 = 0 ∨
    (alphaLoop rand c.data 0).getD j 0 = 254 ∨
    (alphaLoop rand c.data 0).getD j 0 = 255
  rw [alphaLoop_getD, if_pos ⟨by omega, by omega, hjlen2⟩, ha j hj hjlen2]
  rcases noiseDelta_mem _ (hr ((j - 3) / 4)).1 (hr ((j - 3) / 4)).2 with hd | hd | hd <;>
    rw [hd] <;> decide

theorem opaque_alpha_set_amended_witness :
    ∃ c2, noisyFunction (fun _ => drawHigh) canvasOpaque = .ok (c2, 1, 1) ∧
      ∀ j, j % 4 = 3 → j < c2.data.length →
        c2.data.getD j 0 = 0 ∨ c2.data.getD j 0 = 254 ∨ c2.data.getD j 0 = 255 :=
  opaque_alpha_set_amended (fun _ => drawHigh) canvasOpaque rfl rfl
    (by decide) (by decide) (fun _ => drawHigh_bounds)
    (fun j hj hlt => by
      have h4 : canvasOpaque.data.length = 4 := rfl
      rw [h4] at hlt
      have hj3 : j = 3 := by omega
      subst hj3
      rfl)

/-- Claim C3, counterexample.  There is no installation guard flag: a second
evaluation of the script wraps the already-wrapped export, the original it
captures is the first wrapper rather than the native export, and a call
through the doubly-installed `toDataURL` applies noise twice (alpha `100`
becomes `102` with the draw `5/6` at both nesting levels, while a single
wrapper yields `101`). -/
theorem double_install_double_noise_cex :
    (installN 2 hostNative).toDataURL = Impl.wrapped (Impl.wrapped Impl.native) ∧
    (installN 1 hostNative).toDataURL ≠ Impl.native ∧
    (0 ≤ drawHigh ∧ drawHigh < 1) ∧
    runImpl (fun _ _ => drawHigh) ((installN 2 hostNative).toDataURL) canvasTest =
      .ok ⟨1, 1, true, false, [10, 20, 30, 102]⟩ ∧
    runImpl (fun _ _ => drawHigh) (Impl.wrapped Impl.native) canvasTest =
      .ok ⟨1, 1, true, false, [10, 20, 30, 101]⟩ := by
  have e1 : noisyFunction (fun _ => drawHigh) canvasTest =
      .ok (⟨1, 1, true, false, [10, 20, 30, 101]⟩, 1, 1) := by
    rw [noisyFunction_run _ _ rfl rfl (by decide) (by decide),
        alphaLoop_four (fun _ => drawHigh) canvasTest.data rfl]
    rfl
  have e2 : noisyFunction (fun _ => drawHigh)
        ⟨1, 1, true, false, [10, 20, 30, 101]⟩ =
      .ok (⟨1, 1, true, false, [10, 20, 30, 102]⟩, 1, 1) := by
    rw [noisyFunction_run _ _ rfl rfl (by decide) (by decide),
        alphaLoop_four (fun _ => drawHigh)
          (⟨1, 1, true, false, [10, 20, 30, 101]⟩ : Canvas).data rfl]
    rfl
  refine ⟨rfl, by decide, drawHigh_bounds, ?_, ?_⟩
  · show runImpl (fun _ _ => drawHigh) (Impl.wrapped (Impl.wrapped Impl.native))
      canvasTest = .ok ⟨1, 1, true, false, [10, 20, 30, 102]⟩
    simp only [runImpl, e1, e2]
  · simp only [runImpl, e1]

/-- Claim C3, amended: installation is not idempotent.  On a host where every
step succeeds, each evaluation of the script wraps the current export
functions again, so after `n` evaluations every export call applies noise `n`
times (not once), and the original captured by the second evaluation is the
first evaluation's wrapper, not the native implementation. -/
theorem install_wraps_again (n : Nat) (h : Host)
    (hg : h.getImageDataOk = true) (hr1 : h.readToDataURLOk = true)
    (hw1 : h.writeToDataURLOk = true) (hr2 : h.readToBlobOk = true)
    (hw2 : h.writeToBlobOk = true) :
    noiseDepth (installN n h).toDataURL = n + noiseDepth h.toDataURL ∧
    noiseDepth (installN n h).toBlob = n + noiseDepth h.toBlob ∧
    (installN 2 h).toDataURL = Impl.wrapped ((installN 1 h).toDataURL) ∧
    (installN 2 h).toBlob = Impl.wrapped ((installN 1 h).toBlob) := by
  have key : ∀ m (k : Host), k.getImageDataOk = true → k.readToDataURLOk = true →
      k.writeToDataURLOk = true → k.readToBlobOk = true → k.writeToBlobOk = true →
      noiseDepth (installN m k).toDataURL = m + noiseDepth k.toDataURL ∧
      noiseDepth (installN m k).toBlob = m + noiseDepth k.toBlob := by
    intro m
    induction m with
    | zero =>
      intro k _ _ _ _ _
      simp [installN]
    | succ m ih =>
      intro k kg kr1 kw1 kr2 kw2
      have estep : installN (m + 1) k =
          installN m { k with toDataURL := .wrapped k.toDataURL,
                              toBlob := .wrapped k.toBlob } := by
        show installN m (installGuarded k).1 = _
        rw [install_all_ok k kg kr1 kw1 kr2 kw2]
      rw [estep]
      have hIH := ih { k with toDataURL := .wrapped k.toDataURL,
                              toBlob := .wrapped k.toBlob } kg kr1 kw1 kr2 kw2
      refine ⟨?_, ?_⟩
      · rw [hIH.1]
        simp [noiseDepth]
        omega
      · rw [hIH.2]
        simp [noiseDepth]
        omega
  have h1eq : installN 1 h =
      { h with toDataURL := .wrapped h.toDataURL, toBlob := .wrapped h.toBlob } := by
    show installN 0 (installGuarded h).1 = _
    rw [install_all_ok h hg hr1 hw1 hr2 hw2]
    rfl
  have h2eq : installN 2 h =
      { h with toDataURL := .wrapped (.wrapped h.toDataURL),
               toBlob := .wrapped (.wrapped h.toBlob) } := by
    show installN 1 (installGuarded h).1 = _
    rw [install_all_ok h hg hr1 hw1 hr2 hw2]
    show installN 0 (installGuarded
      { h with toDataURL := .wrapped h.toDataURL, toBlob := .wrapped h.toBlob }).1 = _
    rw [install_all_ok
      { h with toDataURL := .wrapped h.toDataURL, toBlob := .wrapped h.toBlob }
      hg hr1 hw1 hr2 hw2]
    rfl
  refine ⟨(key n h hg hr1 hw1 hr2 hw2).1, (key n h hg hr1 hw1 hr2 hw2).2, ?_, ?_⟩
  · rw [h1eq, h2eq]
  · rw [h1eq, h2eq]

theorem install_wraps_again_witness :
    noiseDepth (installN 2 hostNative).toDataURL = 2 + noiseDepth hostNative.toDataURL ∧
    noiseDepth (installN 2 hostNative).toBlob = 2 + noiseDepth hostNative.toBlob ∧
    (installN 2 hostNative).toDataURL = Impl.wrapped ((installN 1 hostNative).toDataURL) ∧
    (installN 2 hostNative).toBlob = Impl.wrapped ((installN 1 hostNative).toBlob) :=
  install_wraps_again 2 hostNative rfl rfl rfl rfl rfl

/-- Claim C7, counterexample.  On a host where reading
`HTMLCanvasElement.prototype.toBlob` throws after `toDataURL` was already
patched, the catch runs (the failure is logged, nothing propagates) but the
environment is left with exactly one of the two export operations patched:
`toDataURL` is wrapped while `toBlob` is still native. -/
theorem half_patched_install_cex :
    (installGuarded hostBlobBroken).2 = true ∧
    (installGuarded hostBlobBroken).1.toDataURL = Impl.wrapped Impl.native ∧
    (installGuarded hostBlobBroken).1.toBlob = Impl.native :=
  ⟨rfl, rfl, rfl⟩

/-- Claim C7, amended: every installation failure is caught by the IIFE's
guard (the function always returns, modelling that no exception reaches the
page, and the catch runs exactly when a step failed).  On success both exports
are wrapped.  On failure `toBlob` is never patched and `toDataURL` is either
untouched or already wrapped — so a failure in the `toBlob` steps leaves the
environment half-patched, with no rollback. -/
theorem install_failure_outcomes (h : Host) :
    ((installGuarded h).2 = false →
      (installGuarded h).1 =
        { h with toDataURL := .wrapped h.toDataURL, toBlob := .wrapped h.toBlob }) ∧
    ((installGuarded h).2 = true →
      (installGuarded h).1.toBlob = h.toBlob ∧
      ((installGuarded h).1.toDataURL = h.toDataURL ∨
        (installGuarded h).1.toDataURL = Impl.wrapped h.toDataURL)) ∧
    (h.getImageDataOk = true → h.readToDataURLOk = true → h.writeToDataURLOk = true →
      h.readToBlobOk = false →
      (installGuarded h).2 = true ∧
      (installGuarded h).1.toDataURL = Impl.wrapped h.toDataURL ∧
      (installGuarded h).1.toBlob = h.toBlob) := by
  obtain ⟨g, r1, w1, r2, w2, td, tb⟩ := h
  cases g <;> cases r1 <;> cases w1 <;> cases r2 <;> cases w2 <;>
    simp [installGuarded]

theorem install_failure_outcomes_witness :
    (installGuarded hostBlobBroken).2 = true ∧
    (installGuarded hostBlobBroken).1.toDataURL = Impl.wrapped hostBlobBroken.toDataURL ∧
    (installGuarded hostBlobBroken).1.toBlob = hostBlobBroken.toBlob :=
  (install_failure_outcomes hostBlobBroken).2.2 rfl rfl rfl rfl

/-- Claim C4: for every canvas with positive width and height and a 2D
context (and draws in the range of `Math.random()`), one noise application
keeps the buffer length, geometry, and every non-alpha byte bit-for-bit, and
moves each alpha byte by a delta in `{-1, 0, 1}` modulo the 0–255 wraparound. -/
theorem noise_frame_effect (rand : Nat → ℚ) (c : Canvas)
    (hc : c.hasContext = true) (ht : c.tainted = false)
    (hw : 0 < c.width) (hh : 0 < c.height)
    (hr : ∀ k, 0 ≤ rand k ∧ rand k < 1) :
    ∃ c2, noisyFunction rand c = .ok (c2, 1, 1) ∧
      c2.width = c.width ∧ c2.height = c.height ∧
      c2.data.length = c.data.length ∧
      (∀ j, j % 4 ≠ 3 → c2.data.getD j 0 = c.data.getD j 0) ∧
      (∀ j, j % 4 = 3 → j < c.data.length →
        ∃ d : Int, (d = -1 ∨ d = 0 ∨ d = 1) ∧
          (c2.data.getD j 0 : Int) = ((c.data.getD j 0 : Int) + d) % 256) := by
  refine ⟨{ c with data := alphaLoop rand c.data 0 },
    noisyFunction_run rand c hc ht (by omega) (by omega), rfl, rfl, ?_, ?_, ?_⟩
  · exact alphaLoop_length rand c.data 0
  · intro j hj
    show (alphaLoop rand c.data 0).getD j 0 = c.data.getD j 0
    rw [alphaLoop_getD, if_neg]
    rintro ⟨h1, h2, h3⟩
    omega
  · intro j hj hjlen
    refine ⟨noiseDelta (rand ((j - 3) / 4)),
      noiseDelta_mem _ (hr ((j - 3) / 4)).1 (hr ((j - 3) / 4)).2, ?_⟩
    show ((alphaLoop rand c.data 0).getD j 0 : Int) = _
    rw [alphaLoop_getD, if_pos ⟨by omega, by omega, hjlen⟩, band255_cast]

theorem noise_frame_effect_witness :
    ∃ c2, noisyFunction (fun _ => drawMid) canvasTest = .ok (c2, 1, 1) ∧
      c2.width = canvasTest.width ∧ c2.height = canvasTest.height ∧
      c2.data.length = canvasTest.data.length ∧
      (∀ j, j % 4 ≠ 3 → c2.data.getD j 0 = canvasTest.data.getD j 0) ∧
      (∀ j, j % 4 = 3 → j < canvasTest.data.length →
        ∃ d : Int, (d = -1 ∨ d = 0 ∨ d = 1) ∧
          (c2.data.getD j 0 : Int) = ((canvasTest.data.getD j 0 : Int) + d) % 256) :=
  noise_frame_effect (fun _ => drawMid) canvasTest rfl rfl (by decide) (by decide)
    (fun _ => drawMid_bounds)

/-- Claim C5: when noise application completes, the patched export invokes the
captured original on the same receiver (its pixel state updated by the noise
step, everything else unchanged) with exactly the caller's arguments, and
returns exactly what the original call returns. -/
theorem wrapper_delegates_to_original {α β : Type}
    (original : Canvas → α → Except Unit β) (rand : Nat → ℚ)
    (c c2 : Canvas) (n m : Nat) (a : α)
    (h : noisyFunction rand c = .ok (c2, n, m)) :
    wrappedExport original rand c a = original c2 a ∧
    c2.width = c.width ∧ c2.height = c.height ∧
    c2.hasContext = c.hasContext ∧ c2.tainted = c.tainted := by
  have hfwd : wrappedExport original rand c a = original c2 a := by
    unfold wrappedExport
    rw [h]
  refine ⟨hfwd, ?_⟩
  rw [noisyFunction] at h
  split_ifs at h with h1 h2 h3
  all_goals
    first
      | exact Except.noConfusion h
      | (simp only [Except.ok.injEq, Prod.mk.injEq] at h
         obtain ⟨rfl, -, -⟩ := h
         exact ⟨rfl, rfl, rfl, rfl⟩)

theorem wrapper_delegates_to_original_witness :
    wrappedExport exportData (fun _ => drawHigh) canvasTest 0 =
      exportData ⟨1, 1, true, false, [10, 20, 30, 101]⟩ 0 ∧
    (⟨1, 1, true, false, [10, 20, 30, 101]⟩ : Canvas).width = canvasTest.width ∧
    (⟨1, 1, true, false, [10, 20, 30, 101]⟩ : Canvas).height = canvasTest.height ∧
    (⟨1, 1, true, false, [10, 20, 30, 101]⟩ : Canvas).hasContext = canvasTest.hasContext ∧
    (⟨1, 1, true, false, [10, 20, 30, 101]⟩ : Canvas).tainted = canvasTest.tainted :=
  wrapper_delegates_to_original exportData (fun _ => drawHigh) canvasTest
    ⟨1, 1, true, false, [10, 20, 30, 101]⟩ 1 1 0
    (by rw [noisyFunction_run _ _ rfl rfl (by decide) (by decide),
            alphaLoop_four (fun _ => drawHigh) canvasTest.data rfl]
        rfl)

/-- Claim C6: on a canvas with zero width, zero height, or no 2D context,
noise application performs zero bulk pixel reads and writes and leaves the
canvas untouched, and the patched export call yields exactly what invoking the
original export directly on the canvas yields. -/
theorem degenerate_canvas_noop {α β : Type}
    (original : Canvas → α → Except Unit β) (rand : Nat → ℚ) (c : Canvas) (a : α)
    (h : c.hasContext = false ∨ c.width = 0 ∨ c.height = 0) :
    noisyFunction rand c = .ok (c, 0, 0) ∧
    wrappedExport original rand c a = original c a := by
  have hg := noisyFunction_guard rand c h
  refine ⟨hg, ?_⟩
  unfold wrappedExport
  rw [hg]

theorem degenerate_canvas_noop_witness :
    noisyFunction (fun _ => drawMid) canvasZero = .ok (canvasZero, 0, 0) ∧
    wrappedExport exportData (fun _ => drawMid) canvasZero 0 = exportData canvasZero 0 :=
  degenerate_canvas_noop exportData (fun _ => drawMid) canvasZero 0 (Or.inr (Or.inl rfl))

/-- Claim C8: for every draw `r` in `[0, 1)`, the per-pixel delta
`Math.floor(r * 3) - 1` is an integer in `{-1, 0, 1}`, and alpha index
`4 * j + 3` of the loop's output is computed from its own draw, draw number
`j`, one fresh draw per pixel per invocation. -/
theorem noise_delta_range_per_pixel (r : ℚ) (rand : Nat → ℚ)
    (data : List Nat) (j : Nat)
    (h0 : 0 ≤ r) (h1 : r < 1) (hj : 4 * j + 3 < data.length) :
    (noiseDelta r = -1 ∨ noiseDelta r = 0 ∨ noiseDelta r = 1) ∧
    noiseDelta r = ⌊r * 3⌋ - 1 ∧
    (alphaLoop rand data 0).getD (4 * j + 3) 0 =
      band255 ((data.getD (4 * j + 3) 0 : Int) + noiseDelta (rand j)) := by
  refine ⟨noiseDelta_mem r h0 h1, noiseDelta_eq_floor r, ?_⟩
  rw [alphaLoop_getD, if_pos ⟨by omega, by omega, hj⟩]
  have hidx : (4 * j + 3 - 3) / 4 = j := by omega
  rw [hidx]

theorem noise_delta_range_per_pixel_witness :
    (noiseDelta drawMid = -1 ∨ noiseDelta drawMid = 0 ∨ noiseDelta drawMid = 1) ∧
    noiseDelta drawMid = ⌊drawMid * 3⌋ - 1 ∧
    (alphaLoop (fun _ => drawHigh) [255, 0, 0, 255] 0).getD (4 * 0 + 3) 0 =
      band255 ((([255, 0, 0, 255] : List Nat).getD (4 * 0 + 3) 0 : Int) +
        noiseDelta ((fun _ => drawHigh) 0)) :=
  noise_delta_range_per_pixel drawMid (fun _ => drawHigh) [255, 0, 0, 255] 0
    drawMid_bounds.1 drawMid_bounds.2 (by decide)

/-- Claim C9 (implicit): for a buffer length `L` that is a multiple of 4,
every index the loop touches is an alpha index strictly below `L`, and the
loop leaves every index it does not touch unchanged — it never reads or
writes outside the buffer. -/
theorem alpha_loop_in_bounds (L : Nat) (h4 : 4 ∣ L) :
    (∀ j ∈ alphaLoopAccesses L 0, j % 4 = 3 ∧ j < L) ∧
    ∀ (rand : Nat → ℚ) (data : List Nat), data.length = L →
      ∀ j, j ∉ alphaLoopAccesses L 0 →
        (alphaLoop rand data 0).getD j 0 = data.getD j 0 := by
  constructor
  · intro j hj
    rw [mem_alphaLoopAccesses] at hj
    obtain ⟨h1, h2, h3⟩ := hj
    constructor <;> omega
  · intro rand data hlen j hj
    rw [mem_alphaLoopAccesses] at hj
    rw [alphaLoop_getD, if_neg]
    rintro ⟨h1, h2, h3⟩
    exact hj ⟨h1, h2, by omega⟩

theorem alpha_loop_in_bounds_witness :
    ((3 : Nat) % 4 = 3 ∧ (3 : Nat) < 8) ∧
    (alphaLoop (fun _ => drawMid) [9, 9, 9, 9, 9, 9, 9, 9] 0).getD 0 0 =
      ([9, 9, 9, 9, 9, 9, 9, 9] : List Nat).getD 0 0 :=
  ⟨(alpha_loop_in_bounds 8 (by decide)).1 3
      ((mem_alphaLoopAccesses 8 0 3).mpr (by decide)),
    (alpha_loop_in_bounds 8 (by decide)).2 (fun _ => drawMid)
      [9, 9, 9, 9, 9, 9, 9, 9] rfl 0
      (by rw [mem_alphaLoopAccesses]; decide)⟩

/-- Claim C10 (implicit): noise application is per-pixel noninterfering — on
two canvases that pass the guards, agree on buffer length and on pixel `j`'s
alpha byte, the same draw stream produces the same output alpha at pixel `j`,
regardless of all red/green/blue bytes and of every other pixel. -/
theorem alpha_noninterference (rand : Nat → ℚ) (c1 c2 : Canvas) (j : Nat)
    (hc1 : c1.hasContext = true) (ht1 : c1.tainted = false)
    (hw1 : 0 < c1.width) (hh1 : 0 < c1.height)
    (hc2 : c2.hasContext = true) (ht2 : c2.tainted = false)
    (hw2 : 0 < c2.width) (hh2 : 0 < c2.height)
    (hlen : c1.data.length = c2.data.length)
    (ha : c1.data.getD (4 * j + 3) 0 = c2.data.getD (4 * j + 3) 0) :
    ∃ d1 d2, noisyFunction rand c1 = .ok (d1, 1, 1) ∧
      noisyFunction rand c2 = .ok (d2, 1, 1) ∧
      d1.data.getD (4 * j + 3) 0 = d2.data.getD (4 * j + 3) 0 := by
  refine ⟨_, _, noisyFunction_run rand c1 hc1 ht1 (by omega) (by omega),
    noisyFunction_run rand c2 hc2 ht2 (by omega) (by omega), ?_⟩
  show (alphaLoop rand c1.data 0).getD (4 * j + 3) 0 =
    (alphaLoop rand c2.data 0).getD (4 * j + 3) 0
  rw [alphaLoop_getD, alphaLoop_getD, hlen, ha]

theorem alpha_noninterference_witness :
    ∃ d1 d2, noisyFunction (fun _ => drawMid) canvasTest = .ok (d1, 1, 1) ∧
      noisyFunction (fun _ => drawMid) ⟨1, 1, true, false, [1, 2, 3, 100]⟩ =
        .ok (d2, 1, 1) ∧
      d1.data.getD (4 * 0 + 3) 0 = d2.data.getD (4 * 0 + 3) 0 :=
  alpha_noninterference (fun _ => drawMid) canvasTest
    ⟨1, 1, true, false, [1, 2, 3, 100]⟩ 0
    rfl rfl (by decide) (by decide) rfl rfl (by decide) (by decide) rfl rfl
